import Mathlib

/-!
Shallow embedding of the snake game simulation core
(repository CJendantix/snake, C++ sources snake.cpp / main.cpp).

The game state and its operations (direction offsets, collision test,
food placement, reset, direction queueing, per-tick update) are
translated function by function from the C++ source.  C++ `std::deque`
and `std::queue` become Lean lists (front of the list = front of the
deque/queue; `push` appends at the back, `pop` removes the head).
C++ `int` arithmetic is modelled by `Int`; the C++ division operator
truncates toward zero, which is `Int.tdiv`.  The random generator is
modelled by an extra `Nat` parameter selecting among the possible draws
(an index into the uniform range), so every theorem quantifies over all
possible random outcomes.
-/

namespace SnakeGame

/-- The four movement directions (enum class Direction). -/
inductive Direction where
  | UP
  | DOWN
  | LEFT
  | RIGHT
deriving DecidableEq, Repr

/-- 2D integer grid coordinate (struct Vector2Int), componentwise equality. -/
structure Vector2Int where
  x : Int
  y : Int
deriving DecidableEq, Repr

instance : Inhabited Vector2Int := ⟨⟨0, 0⟩⟩

/-- The game state (struct Game).  `snake` lists body cells head first;
`directionQueue` lists pending directions front first.  The move timer is a
local variable of the loop driver in `main`, not a field of `Game`. -/
structure Game where
  width : Int
  height : Int
  snake : List Vector2Int
  apple : Vector2Int
  direction : Direction
  directionQueue : List Direction
deriving DecidableEq, Repr

/-- constexpr int BORDER_THICKNESS = 2. -/
def BORDER_THICKNESS : Int := 2

/-- GetCellSize from main.cpp / snake.cpp: per-axis available pixels divided
by the grid dimension with C++ integer division (truncation toward zero),
then the minimum of the two axes. -/
def GetCellSize (gameWidth gameHeight screenWidth screenHeight : Int) : Int :=
  let cellWidth := Int.tdiv (screenWidth - BORDER_THICKNESS * 2) gameWidth
  let cellHeight := Int.tdiv (screenHeight - BORDER_THICKNESS * 2) gameHeight
  min cellWidth cellHeight

/-- OffsetFromDirection: the unit offset of each direction. -/
def OffsetFromDirection : Direction → Vector2Int
  | .UP => ⟨0, -1⟩
  | .DOWN => ⟨0, 1⟩
  | .LEFT => ⟨-1, 0⟩
  | .RIGHT => ⟨1, 0⟩

/-- IsGameOver: true when `newHead` is outside `[0,width) × [0,height)` or
occurs among the (entire) current snake body. -/
def IsGameOver (game : Game) (newHead : Vector2Int) : Bool :=
  if newHead.x < 0 ∨ game.width ≤ newHead.x ∨ newHead.y < 0 ∨ game.height ≤ newHead.y then
    true
  else
    decide (newHead ∈ game.snake)

/-- The free cells enumerated by GetNewApplePosition (snake.cpp): x from 0 to
width−1 outer, y from 0 to height−1 inner, keeping cells not on the snake. -/
def emptyCells (game : Game) : List Vector2Int :=
  (List.range game.width.toNat).flatMap (fun (x : Nat) =>
    (List.range game.height.toNat).filterMap (fun (y : Nat) =>
      if (⟨(x : Int), (y : Int)⟩ : Vector2Int) ∈ game.snake then none
      else some ⟨(x : Int), (y : Int)⟩))

/-- GetNewApplePosition (snake.cpp): collect all cells not occupied by the
snake; if any exist return the one selected by the uniform random draw
(modelled by index `k` reduced modulo the number of free cells), otherwise
return the sentinel {0, 0}. -/
def GetNewApplePosition (game : Game) (k : Nat) : Vector2Int :=
  let empty := emptyCells game
  if h : empty = [] then ⟨0, 0⟩
  else empty.get ⟨k % empty.length, Nat.mod_lt k (List.length_pos.mpr h)⟩

/-- One candidate cell drawn by the rejection sampler of main.cpp /
part_001: the pair of uniform draws distX(gen), distY(gen) over
[0,width-1] and [0,height-1] is modelled by a pair of indices reduced
modulo the grid dimensions (the same convention as the `k` parameter of
`GetNewApplePosition`). -/
def drawCell (game : Game) (d : Nat × Nat) : Vector2Int :=
  ⟨((d.1 % game.width.toNat : Nat) : Int), ((d.2 % game.height.toNat : Nat) : Int)⟩

/-- GetNewApplePosition from main.cpp / part_001: a do-while loop that keeps
drawing uniform cells until one misses the snake.  The loop is modelled
against an arbitrary stream `draws` of random draws (one pair per
iteration) and an iteration bound `fuel`: `some pos` means the C++ loop
exits with `pos` within `fuel` iterations, `none` that it is still running
after `fuel` iterations.  The loop having no exit other than drawing a free
cell, "never returns" is `none` for every fuel and every stream. -/
def GetNewApplePositionLoop (game : Game) (draws : Nat → Nat × Nat) : Nat → Option Vector2Int
  | 0 => none
  | fuel + 1 =>
    let pos := drawCell game (draws 0)
    if pos ∈ game.snake then GetNewApplePositionLoop game (fun n => draws (n + 1)) fuel
    else some pos

/-- ResetGame (snake.cpp): head at the grid center, second and third cells
laid behind the head against the current direction's offset, then the apple
relocated against the new 3-cell body.  Nothing else is assigned. -/
def ResetGame (game : Game) (k : Nat) : Game :=
  let centerX := Int.tdiv game.width 2
  let centerY := Int.tdiv game.height 2
  let head : Vector2Int := ⟨centerX, centerY⟩
  let offset := OffsetFromDirection game.direction
  let second : Vector2Int := ⟨head.x - offset.x, head.y - offset.y⟩
  let third : Vector2Int := ⟨second.x - offset.x, second.y - offset.y⟩
  let g1 : Game := { game with snake := [head, second, third] }
  { g1 with apple := GetNewApplePosition g1 k }

/-- QueueDirection (snake.cpp): drop the request when the queue already has 3
entries; otherwise compare against the last queued entry (or the committed
direction when the queue is empty) and append unless the request is the
opposite of that reference direction. -/
def QueueDirection (game : Game) (newDirection : Direction) : Game :=
  if 3 ≤ game.directionQueue.length then game
  else
    let lastDirection :=
      match game.directionQueue.getLast? with
      | none => game.direction
      | some d => d
    if (newDirection = .LEFT ∧ lastDirection ≠ .RIGHT) ∨
       (newDirection = .RIGHT ∧ lastDirection ≠ .LEFT) ∨
       (newDirection = .UP ∧ lastDirection ≠ .DOWN) ∨
       (newDirection = .DOWN ∧ lastDirection ≠ .UP) then
      { game with directionQueue := game.directionQueue ++ [newDirection] }
    else
      game

/-- QueueDirection from main.cpp / the second variant: identical except for an
explicit early rejection of a request equal to the last queued entry, and the
empty/non-empty queue cases written out separately. -/
def QueueDirectionMain (game : Game) (newDirection : Direction) : Game :=
  if 3 ≤ game.directionQueue.length then game
  else if game.directionQueue ≠ [] ∧ game.directionQueue.getLast? = some newDirection then game
  else if game.directionQueue = [] then
    if (newDirection = .LEFT ∧ game.direction ≠ .RIGHT) ∨
       (newDirection = .RIGHT ∧ game.direction ≠ .LEFT) ∨
       (newDirection = .UP ∧ game.direction ≠ .DOWN) ∨
       (newDirection = .DOWN ∧ game.direction ≠ .UP) then
      { game with directionQueue := game.directionQueue ++ [newDirection] }
    else game
  else
    let lastQueued := game.directionQueue.getLast?.getD game.direction
    if (newDirection = .LEFT ∧ lastQueued ≠ .RIGHT) ∨
       (newDirection = .RIGHT ∧ lastQueued ≠ .LEFT) ∨
       (newDirection = .UP ∧ lastQueued ≠ .DOWN) ∨
       (newDirection = .DOWN ∧ lastQueued ≠ .UP) then
      { game with directionQueue := game.directionQueue ++ [newDirection] }
    else game

/-- Update (snake.cpp): consume the front of the direction queue into the
committed direction, compute the new head from the snake front plus the
direction offset, return true on collision without touching snake or apple,
otherwise push the new head; on eating relocate the apple, else drop the
tail.  `k` selects the random draw used if the apple is relocated. -/
def Update (game : Game) (k : Nat) : Bool × Game :=
  let g :=
    match game.directionQueue with
    | [] => game
    | d :: rest => { game with direction := d, directionQueue := rest }
  let offset := OffsetFromDirection g.direction
  let front := g.snake.headI
  let newHead : Vector2Int := ⟨front.x + offset.x, front.y + offset.y⟩
  if IsGameOver g newHead then (true, g)
  else
    let g2 : Game := { g with snake := newHead :: g.snake }
    if newHead = g2.apple then
      (false, { g2 with apple := GetNewApplePosition g2 k })
    else
      (false, { g2 with snake := g2.snake.dropLast })

/-- The direction a tick will commit: front of the queue when non-empty,
otherwise the already committed direction. -/
def effectiveDirection (game : Game) : Direction :=
  match game.directionQueue with
  | [] => game.direction
  | d :: _ => d

/-- The new head cell a tick will test: snake front plus the offset of the
effective direction. -/
def newHeadOf (game : Game) : Vector2Int :=
  let off := OffsetFromDirection (effectiveDirection game)
  ⟨game.snake.headI.x + off.x, game.snake.headI.y + off.y⟩

/-- Spec-level opposite relation on directions (section 4.1 of the spec):
Up and Down are opposite, Left and Right are opposite. -/
def IsOpposite (a b : Direction) : Bool :=
  match a, b with
  | .UP, .DOWN => true
  | .DOWN, .UP => true
  | .LEFT, .RIGHT => true
  | .RIGHT, .LEFT => true
  | _, _ => false

/-- Spec-level formulation of CellSize (section 4.2): minimum of the two
per-axis quotients computed with floor division and border 2. -/
def CellSizeSpecFloor (gridW gridH viewportW viewportH : Int) : Int :=
  min (Int.fdiv (viewportW - 2 * BORDER_THICKNESS) gridW)
      (Int.fdiv (viewportH - 2 * BORDER_THICKNESS) gridH)

/-- The reversal-freedom invariant of the spec (section 8): no two consecutive
entries of the chain (committed direction followed by the queue, in order)
are opposite. -/
def NoReversals (g : Game) : Prop :=
  List.Chain' (fun a b => IsOpposite a b = false) (g.direction :: g.directionQueue)

/-- A 2 by 2 looped snake about to move into its own tail cell: head at (1,1),
tail at (1,2), heading DOWN, apple elsewhere. -/
def gC1 : Game := ⟨5, 5, [⟨1, 1⟩, ⟨2, 1⟩, ⟨2, 2⟩, ⟨1, 2⟩], ⟨4, 4⟩, .DOWN, []⟩

/-- A 2 by 1 grid whose single-cell snake is about to eat the only other
cell, leaving no free cell for the relocated apple. -/
def gC2 : Game := ⟨2, 1, [⟨0, 0⟩], ⟨1, 0⟩, .RIGHT, []⟩

/-- The spec's eating scenario: 5 by 5 grid, snake (2,2),(1,2),(0,2) heading
RIGHT, apple at (3,2). -/
def gC2w : Game := ⟨5, 5, [⟨2, 2⟩, ⟨1, 2⟩, ⟨0, 2⟩], ⟨3, 2⟩, .RIGHT, []⟩

/-- The session grid: 25 by 25, a 3-cell snake heading RIGHT. -/
def gC3w : Game := ⟨25, 25, [⟨12, 12⟩, ⟨11, 12⟩, ⟨10, 12⟩], ⟨5, 5⟩, .RIGHT, []⟩

/-- A state whose pending queue already holds UP (for the duplicate-enqueue
counterexample). -/
def gC4c : Game := ⟨25, 25, [⟨12, 12⟩], ⟨0, 0⟩, .RIGHT, [.UP]⟩

/-- A state whose pending queue already holds UP (for the duplicate-enqueue
witness). -/
def gC4w : Game := ⟨25, 25, [⟨12, 12⟩], ⟨0, 0⟩, .RIGHT, [.UP]⟩

/-- A state with a non-empty pending queue handed to ResetGame. -/
def gC5c : Game := ⟨25, 25, [⟨3, 3⟩], ⟨0, 0⟩, .RIGHT, [.UP]⟩

/-- A fresh session state with an empty pending queue. -/
def gC6w : Game := ⟨25, 25, [⟨12, 12⟩], ⟨0, 0⟩, .RIGHT, []⟩

/-- A key-press burst: UP, LEFT, DOWN, RIGHT, UP. -/
def dsC6 : List Direction := [.UP, .LEFT, .DOWN, .RIGHT, .UP]

/-- A 5 by 5 state with a single-cell snake, so free cells exist. -/
def gC7free : Game := ⟨5, 5, [⟨2, 2⟩], ⟨0, 0⟩, .RIGHT, []⟩

/-- A 1 by 1 grid entirely covered by the snake. -/
def gC7full : Game := ⟨1, 1, [⟨0, 0⟩], ⟨0, 0⟩, .RIGHT, []⟩

/-- The spec's wall scenario: snake (0,2),(1,2),(2,2) heading LEFT, so the
tick moves out of bounds. -/
def gC8w : Game := ⟨5, 5, [⟨0, 2⟩, ⟨1, 2⟩, ⟨2, 2⟩], ⟨4, 4⟩, .LEFT, []⟩

/-- A state heading RIGHT whose queue holds DOWN, about to be consumed. -/
def gC10w : Game := ⟨25, 25, [⟨12, 12⟩], ⟨0, 0⟩, .RIGHT, [.DOWN]⟩

theorem isGameOver_iff (g : Game) (p : Vector2Int) :
    IsGameOver g p = true ↔
      p.x < 0 ∨ g.width ≤ p.x ∨ p.y < 0 ∨ g.height ≤ p.y ∨ p ∈ g.snake := by
  unfold IsGameOver
  by_cases h : p.x < 0 ∨ g.width ≤ p.x ∨ p.y < 0 ∨ g.height ≤ p.y
  · simp only [if_pos h]
    tauto
  · simp only [if_neg h, decide_eq_true_eq]
    tauto

theorem mem_emptyCells {g : Game} {p : Vector2Int} :
    p ∈ emptyCells g ↔
      0 ≤ p.x ∧ p.x < g.width ∧ 0 ≤ p.y ∧ p.y < g.height ∧ p ∉ g.snake := by
  unfold emptyCells
  rw [List.mem_flatMap]
  constructor
  · rintro ⟨x, hx, hin⟩
    rw [List.mem_range] at hx
    rw [List.mem_filterMap] at hin
    obtain ⟨y, hy, hpos⟩ := hin
    rw [List.mem_range] at hy
    split at hpos
    · exact absurd hpos (by simp)
    · rename_i hnot
      rw [Option.some_inj] at hpos
      subst hpos
      refine ⟨?_, ?_, ?_, ?_, hnot⟩
      · show (0 : Int) ≤ (x : Int)
        omega
      · show (x : Int) < g.width
        omega
      · show (0 : Int) ≤ (y : Int)
        omega
      · show (y : Int) < g.height
        omega
  · rintro ⟨hx0, hxw, hy0, hyh, hmem⟩
    refine ⟨p.x.toNat, ?_, ?_⟩
    · rw [List.mem_range]; omega
    · rw [List.mem_filterMap]
      refine ⟨p.y.toNat, ?_, ?_⟩
      · rw [List.mem_range]; omega
      · have hp : (⟨(p.x.toNat : Int), (p.y.toNat : Int)⟩ : Vector2Int) = p := by
          obtain ⟨px, py⟩ := p
          dsimp only at *
          simp only [Vector2Int.mk.injEq]
          constructor <;> omega
        rw [hp, if_neg hmem]

theorem getNewApplePosition_mem {g : Game} (k : Nat) (h : emptyCells g ≠ []) :
    GetNewApplePosition g k ∈ emptyCells g := by
  unfold GetNewApplePosition
  rw [dif_neg h]
  exact List.get_mem _ _ _

theorem getNewApplePosition_sentinel {g : Game} (k : Nat) (h : emptyCells g = []) :
    GetNewApplePosition g k = ⟨0, 0⟩ := by
  unfold GetNewApplePosition
  rw [dif_pos h]

theorem getNewApplePositionLoop_not_mem (g : Game) :
    ∀ (fuel : Nat) (draws : Nat → Nat × Nat) (pos : Vector2Int),
      GetNewApplePositionLoop g draws fuel = some pos → pos ∉ g.snake := by
  intro fuel
  induction fuel with
  | zero =>
    intro draws pos h
    exact absurd h (by simp [GetNewApplePositionLoop])
  | succ n ih =>
    intro draws pos h
    unfold GetNewApplePositionLoop at h
    dsimp only at h
    split at h
    · exact ih _ _ h
    · rename_i hnot
      rw [Option.some_inj] at h
      subst h
      exact hnot

theorem getNewApplePositionLoop_full (g : Game) (hw : 1 ≤ g.width) (hh : 1 ≤ g.height)
    (hfull : ∀ p : Vector2Int, 0 ≤ p.x → p.x < g.width → 0 ≤ p.y → p.y < g.height →
      p ∈ g.snake) :
    ∀ (fuel : Nat) (draws : Nat → Nat × Nat),
      GetNewApplePositionLoop g draws fuel = none := by
  intro fuel
  induction fuel with
  | zero => intro draws; rfl
  | succ n ih =>
    intro draws
    unfold GetNewApplePositionLoop
    dsimp only
    rw [if_pos]
    · exact ih _
    · apply hfull
      · show (0 : Int) ≤ (((draws 0).1 % g.width.toNat : Nat) : Int)
        omega
      · show (((draws 0).1 % g.width.toNat : Nat) : Int) < g.width
        have := @Nat.mod_lt (draws 0).1 g.width.toNat (by omega)
        omega
      · show (0 : Int) ≤ (((draws 0).2 % g.height.toNat : Nat) : Int)
        omega
      · show (((draws 0).2 % g.height.toNat : Nat) : Int) < g.height
        have := @Nat.mod_lt (draws 0).2 g.height.toNat (by omega)
        omega

theorem isGameOver_set_dir (g : Game) (d : Direction) (q : List Direction) (p : Vector2Int) :
    IsGameOver { g with direction := d, directionQueue := q } p = IsGameOver g p := rfl

theorem update_fst (g : Game) (k : Nat) :
    (Update g k).1 = IsGameOver g (newHeadOf g) := by
  cases hq : g.directionQueue with
  | nil =>
    simp only [Update, hq, newHeadOf, effectiveDirection]
    split
    · rename_i hgo; simp_all
    · rename_i hgo; split <;> simp_all
  | cons d rest =>
    simp only [Update, hq, newHeadOf, effectiveDirection, isGameOver_set_dir]
    split
    · rename_i hgo; simp_all [isGameOver_set_dir]
    · rename_i hgo; split <;> simp_all [isGameOver_set_dir]

theorem update_pop (g : Game) (k : Nat) (d : Direction) (rest : List Direction)
    (h : g.directionQueue = d :: rest) :
    (Update g k).2.direction = d ∧ (Update g k).2.directionQueue = rest := by
  simp only [Update, h]
  split
  · simp
  · split <;> simp

theorem update_dims (g : Game) (k : Nat) :
    (Update g k).2.width = g.width ∧ (Update g k).2.height = g.height := by
  cases hq : g.directionQueue with
  | nil =>
    simp only [Update, hq]
    split
    · simp
    · split <;> simp
  | cons d rest =>
    simp only [Update, hq]
    split
    · simp
    · split <;> simp

theorem update_eat (g : Game) (k : Nat)
    (hgo : IsGameOver g (newHeadOf g) = false)
    (happ : newHeadOf g = g.apple) :
    (Update g k).2.snake = newHeadOf g :: g.snake ∧
    (Update g k).2.apple =
      GetNewApplePosition { g with snake := newHeadOf g :: g.snake } k := by
  cases hq : g.directionQueue with
  | nil =>
    simp only [newHeadOf, effectiveDirection, hq] at hgo happ ⊢
    simp only [Update, hq]
    rw [if_neg (by rw [hgo]; simp)]
    rw [if_pos (by exact happ)]
    exact ⟨rfl, rfl⟩
  | cons d rest =>
    simp only [newHeadOf, effectiveDirection, hq] at hgo happ ⊢
    simp only [Update, hq]
    rw [if_neg (by rw [show IsGameOver { g with direction := d, directionQueue := rest }
          ⟨g.snake.headI.x + (OffsetFromDirection d).x,
            g.snake.headI.y + (OffsetFromDirection d).y⟩ =
        IsGameOver g ⟨g.snake.headI.x + (OffsetFromDirection d).x,
            g.snake.headI.y + (OffsetFromDirection d).y⟩ from rfl, hgo]; simp)]
    rw [if_pos (by exact happ)]
    exact ⟨rfl, rfl⟩

theorem resetGame_snake (g : Game) (k : Nat) :
    (ResetGame g k).snake =
      [⟨Int.tdiv g.width 2, Int.tdiv g.height 2⟩,
       ⟨Int.tdiv g.width 2 - (OffsetFromDirection g.direction).x,
        Int.tdiv g.height 2 - (OffsetFromDirection g.direction).y⟩,
       ⟨Int.tdiv g.width 2 - 2 * (OffsetFromDirection g.direction).x,
        Int.tdiv g.height 2 - 2 * (OffsetFromDirection g.direction).y⟩] := by
  simp only [ResetGame, List.cons.injEq, Vector2Int.mk.injEq, eq_self_iff_true, and_true,
    true_and]
  omega

theorem resetGame_apple (g : Game) (k : Nat) :
    (ResetGame g k).apple =
      GetNewApplePosition { g with snake := (ResetGame g k).snake } k := rfl

theorem push_cond_iff (nd last : Direction) :
    ((nd = .LEFT ∧ last ≠ .RIGHT) ∨ (nd = .RIGHT ∧ last ≠ .LEFT) ∨
     (nd = .UP ∧ last ≠ .DOWN) ∨ (nd = .DOWN ∧ last ≠ .UP)) ↔
      IsOpposite last nd = false := by
  cases nd <;> cases last <;> decide

theorem chain_snoc {d : Direction} {q : List Direction} {nd : Direction}
    (h : List.Chain' (fun a b => IsOpposite a b = false) (d :: q))
    (hlast : IsOpposite (q.getLast?.getD d) nd = false) :
    List.Chain' (fun a b => IsOpposite a b = false) (d :: (q ++ [nd])) := by
  have he : d :: (q ++ [nd]) = (d :: q) ++ [nd] := by simp
  rw [he, List.chain'_append]
  refine ⟨h, List.chain'_singleton _, ?_⟩
  intro x hx y hy
  rw [List.getLast?_cons, Option.mem_def, Option.some_inj] at hx
  simp only [List.head?, Option.mem_def, Option.some_inj] at hy
  subst hx
  subst hy
  exact hlast

theorem queueDirection_step (g : Game) (nd : Direction)
    (h1 : NoReversals g) (h2 : g.directionQueue.length ≤ 3) :
    NoReversals (QueueDirection g nd) ∧
      (QueueDirection g nd).directionQueue.length ≤ 3 ∧
      (QueueDirection g nd).direction = g.direction := by
  unfold QueueDirection
  split
  · exact ⟨h1, h2, rfl⟩
  · rename_i hlen
    have hmatch : (match g.directionQueue.getLast? with
        | none => g.direction | some d => d) = g.directionQueue.getLast?.getD g.direction := by
      cases g.directionQueue.getLast? <;> rfl
    rw [hmatch]
    dsimp only
    split
    · rename_i hcond
      rw [push_cond_iff] at hcond
      refine ⟨?_, ?_, rfl⟩
      · exact chain_snoc h1 hcond
      · simp only [List.length_append, List.length_singleton]
        omega
    · exact ⟨h1, h2, rfl⟩

theorem queueDirectionMain_step (g : Game) (nd : Direction)
    (h1 : NoReversals g) (h2 : g.directionQueue.length ≤ 3) :
    NoReversals (QueueDirectionMain g nd) ∧
      (QueueDirectionMain g nd).directionQueue.length ≤ 3 ∧
      (QueueDirectionMain g nd).direction = g.direction := by
  unfold QueueDirectionMain
  dsimp only
  split
  · exact ⟨h1, h2, rfl⟩
  · rename_i hlen
    split
    · exact ⟨h1, h2, rfl⟩
    · split
      · rename_i hnil
        split
        · rename_i hcond
          rw [push_cond_iff] at hcond
          refine ⟨?_, ?_, rfl⟩
          · refine chain_snoc h1 ?_
            rw [hnil]
            exact hcond
          · simp only [List.length_append, List.length_singleton]
            omega
        · exact ⟨h1, h2, rfl⟩
      · split
        · rename_i hcond
          rw [push_cond_iff] at hcond
          refine ⟨?_, ?_, rfl⟩
          · exact chain_snoc h1 hcond
          · simp only [List.length_append, List.length_singleton]
            omega
        · exact ⟨h1, h2, rfl⟩

/-- C1 counterexample: on `gC1` the new head is in bounds, differs from the
apple (so the move would not grow), and coincides with exactly the tail cell
about to be vacated, yet `Update` still returns true — refuting the claimed
tail-vacancy exception at a concrete input. -/
theorem claim_C1_counterexample :
    (Update gC1 0).1 = true ∧
    0 ≤ (newHeadOf gC1).x ∧ (newHeadOf gC1).x < gC1.width ∧
    0 ≤ (newHeadOf gC1).y ∧ (newHeadOf gC1).y < gC1.height ∧
    gC1.snake.getLast? = some (newHeadOf gC1) ∧
    (∀ c ∈ gC1.snake.dropLast, c ≠ newHeadOf gC1) ∧
    newHeadOf gC1 ≠ gC1.apple := by
  decide

/-- C1 (amended): `Update` returns true exactly when the new head (old head
plus the offset of the direction committed after consuming the queue) is
outside `[0,width) × [0,height)` or equals any cell of the entire pre-move
body, the current tail included — there is no tail-vacancy exception. -/
theorem claim_C1 (g : Game) (k : Nat) :
    (Update g k).1 = true ↔
      (newHeadOf g).x < 0 ∨ g.width ≤ (newHeadOf g).x ∨
      (newHeadOf g).y < 0 ∨ g.height ≤ (newHeadOf g).y ∨ newHeadOf g ∈ g.snake := by
  rw [update_fst, isGameOver_iff]

/-- C2 counterexample: on the 2 by 1 grid `gC2` the tick eats the apple
collision-free, the snake grows to fill the whole grid, and the relocated
apple — the sentinel (0,0) — lies inside the new body, refuting the claim
that the relocated food is never inside the new snake body. -/
theorem claim_C2_counterexample :
    newHeadOf gC2 = gC2.apple ∧
    (Update gC2 0).1 = false ∧
    (Update gC2 0).2.snake.length = gC2.snake.length + 1 ∧
    (Update gC2 0).2.apple ∈ (Update gC2 0).2.snake := by
  decide

/-- C2 (amended): when the new head equals the apple, no collision occurs,
and at least one grid cell remains free of the grown body, the tick returns
false, the snake grows by exactly one cell, and the relocated apple is not
inside the new body (new head included).  The free-cell proviso is needed:
when the grown snake fills the grid the sentinel apple (0,0) lies on the
body. -/
theorem claim_C2 (g : Game) (k : Nat)
    (happ : newHeadOf g = g.apple)
    (hgo : IsGameOver g (newHeadOf g) = false)
    (hfree : ∃ p : Vector2Int, 0 ≤ p.x ∧ p.x < g.width ∧ 0 ≤ p.y ∧ p.y < g.height ∧
      p ∉ newHeadOf g :: g.snake) :
    (Update g k).1 = false ∧
    (Update g k).2.snake.length = g.snake.length + 1 ∧
    (Update g k).2.apple ∉ (Update g k).2.snake := by
  obtain ⟨hsnake, happle⟩ := update_eat g k hgo happ
  refine ⟨by rw [update_fst, hgo], by rw [hsnake]; rfl, ?_⟩
  rw [hsnake, happle]
  obtain ⟨p, hp⟩ := hfree
  have hpm : p ∈ emptyCells { g with snake := newHeadOf g :: g.snake } :=
    mem_emptyCells.mpr hp
  have hne : emptyCells { g with snake := newHeadOf g :: g.snake } ≠ [] :=
    List.ne_nil_of_mem hpm
  have hmem := getNewApplePosition_mem k hne
  exact (mem_emptyCells.mp hmem).2.2.2.2

/-- C2 witness: the spec's eating scenario on `gC2w` (5 by 5, snake
(2,2),(1,2),(0,2) heading RIGHT, apple (3,2)) satisfies the hypotheses and
exhibits the conclusion. -/
theorem claim_C2_witness :
    (newHeadOf gC2w = gC2w.apple ∧ IsGameOver gC2w (newHeadOf gC2w) = false ∧
      (∃ p : Vector2Int, 0 ≤ p.x ∧ p.x < gC2w.width ∧ 0 ≤ p.y ∧ p.y < gC2w.height ∧
        p ∉ newHeadOf gC2w :: gC2w.snake)) ∧
    ((Update gC2w 0).1 = false ∧
      (Update gC2w 0).2.snake.length = gC2w.snake.length + 1 ∧
      (Update gC2w 0).2.apple ∉ (Update gC2w 0).2.snake) :=
  ⟨⟨by decide, by decide, ⟨⟨0, 0⟩, by decide⟩⟩,
    claim_C2 gC2w 0 (by decide) (by decide) ⟨⟨0, 0⟩, by decide⟩⟩

/-- C3 (confirmed): on any grid at least 5 by 5 (so in particular the 25 by
25 session grid), `ResetGame` yields a 3-cell snake whose head is the grid
center and whose second and third cells sit behind the head at one and two
inverse offsets of the committed direction; all three cells are inside the
grid and the placed apple avoids the body for every random draw. -/
theorem claim_C3 (g : Game) (k : Nat) (hw : 5 ≤ g.width) (hh : 5 ≤ g.height) :
    (ResetGame g k).snake.length = 3 ∧
    (ResetGame g k).snake =
      [⟨Int.tdiv g.width 2, Int.tdiv g.height 2⟩,
       ⟨Int.tdiv g.width 2 - (OffsetFromDirection g.direction).x,
        Int.tdiv g.height 2 - (OffsetFromDirection g.direction).y⟩,
       ⟨Int.tdiv g.width 2 - 2 * (OffsetFromDirection g.direction).x,
        Int.tdiv g.height 2 - 2 * (OffsetFromDirection g.direction).y⟩] ∧
    (∀ c ∈ (ResetGame g k).snake,
        0 ≤ c.x ∧ c.x < g.width ∧ 0 ≤ c.y ∧ c.y < g.height) ∧
    (ResetGame g k).apple ∉ (ResetGame g k).snake := by
  have hs := resetGame_snake g k
  have htw : Int.tdiv g.width 2 = g.width / 2 := Int.tdiv_eq_ediv (by omega) (by omega)
  have hth : Int.tdiv g.height 2 = g.height / 2 := Int.tdiv_eq_ediv (by omega) (by omega)
  rw [htw, hth] at hs
  refine ⟨by rw [resetGame_snake]; rfl, resetGame_snake g k, ?_, ?_⟩
  · intro c hc
    rw [hs] at hc
    simp only [List.mem_cons, List.not_mem_nil, or_false] at hc
    rcases hc with h | h | h <;> subst h <;>
      cases hd : g.direction <;>
        simp only [OffsetFromDirection] <;> omega
  · rw [resetGame_apple]
    have hzero : (⟨0, 0⟩ : Vector2Int) ∈
        emptyCells { g with snake := (ResetGame g k).snake } := by
      rw [mem_emptyCells]
      refine ⟨le_refl 0, by dsimp only; omega, le_refl 0, by dsimp only; omega, ?_⟩
      show (⟨0, 0⟩ : Vector2Int) ∉ (ResetGame g k).snake
      rw [hs]
      cases hd : g.direction <;>
        simp only [OffsetFromDirection, List.mem_cons, List.not_mem_nil, or_false, not_or,
          Vector2Int.mk.injEq, not_and] <;> omega
    have hne : emptyCells { g with snake := (ResetGame g k).snake } ≠ [] :=
      List.ne_nil_of_mem hzero
    have hmem := getNewApplePosition_mem k hne
    rw [mem_emptyCells] at hmem
    exact hmem.2.2.2.2

/-- C3 witness: the session grid state `gC3w` (25 by 25) instantiates the
grid-size hypotheses and the conclusion for the random draw 0. -/
theorem claim_C3_witness :
    (5 ≤ gC3w.width ∧ 5 ≤ gC3w.height) ∧
    ((ResetGame gC3w 0).snake.length = 3 ∧
      (ResetGame gC3w 0).snake =
        [⟨Int.tdiv gC3w.width 2, Int.tdiv gC3w.height 2⟩,
         ⟨Int.tdiv gC3w.width 2 - (OffsetFromDirection gC3w.direction).x,
          Int.tdiv gC3w.height 2 - (OffsetFromDirection gC3w.direction).y⟩,
         ⟨Int.tdiv gC3w.width 2 - 2 * (OffsetFromDirection gC3w.direction).x,
          Int.tdiv gC3w.height 2 - 2 * (OffsetFromDirection gC3w.direction).y⟩] ∧
      (∀ c ∈ (ResetGame gC3w 0).snake,
          0 ≤ c.x ∧ c.x < gC3w.width ∧ 0 ≤ c.y ∧ c.y < gC3w.height) ∧
      (ResetGame gC3w 0).apple ∉ (ResetGame gC3w 0).snake) :=
  ⟨⟨by decide, by decide⟩, claim_C3 gC3w 0 (by decide) (by decide)⟩

/-- C4 counterexample: with UP already queued, enqueueing UP again through
snake.cpp's `QueueDirection` appends a second UP instead of leaving the
queue unchanged — duplicates are not coalesced in that variant. -/
theorem claim_C4_counterexample :
    gC4c.directionQueue = [.UP] ∧
    (QueueDirection gC4c .UP).directionQueue = [.UP, .UP] := by
  decide

/-- C4 (amended): a request equal to the last queued entry is rejected by
the main.cpp variant (`QueueDirectionMain` leaves the state unchanged), but
snake.cpp's `QueueDirection` has no duplicate check and appends the
duplicate whenever the queue holds fewer than 3 entries, a direction never
being opposite to itself. -/
theorem claim_C4 (g : Game) (d : Direction)
    (hlast : g.directionQueue.getLast? = some d) :
    QueueDirectionMain g d = g ∧
      (g.directionQueue.length < 3 →
        QueueDirection g d = { g with directionQueue := g.directionQueue ++ [d] }) := by
  have hnil : g.directionQueue ≠ [] := by
    intro h
    rw [h] at hlast
    simp at hlast
  constructor
  · unfold QueueDirectionMain
    split
    · rfl
    · rw [if_pos ⟨hnil, hlast⟩]
  · intro hlen
    unfold QueueDirection
    rw [if_neg (by omega)]
    dsimp only
    rw [hlast]
    rw [if_pos (by cases d <;> simp)]

/-- C4 witness: the state `gC4w` with queue `[UP]` instantiates both halves
of the amended claim for a duplicate UP request. -/
theorem claim_C4_witness :
    gC4w.directionQueue.getLast? = some Direction.UP ∧
    QueueDirectionMain gC4w Direction.UP = gC4w ∧
    QueueDirection gC4w Direction.UP =
      { gC4w with directionQueue := gC4w.directionQueue ++ [Direction.UP] } :=
  ⟨rfl, (claim_C4 gC4w Direction.UP rfl).1, (claim_C4 gC4w Direction.UP rfl).2 (by decide)⟩

/-- C5 counterexample: `ResetGame` on a state with a non-empty pending queue
returns the queue exactly as it was — it is not cleared, refuting the claim
at a concrete input. -/
theorem claim_C5_counterexample :
    gC5c.directionQueue ≠ [] ∧
    (ResetGame gC5c 0).directionQueue = gC5c.directionQueue := by
  decide

/-- C5 (amended): `ResetGame` reassigns only the snake body and the apple;
it leaves the grid width and height, the committed direction, and — contrary
to the claim — the pending-direction queue unchanged.  The move timer is a
local of the loop driver that `ResetGame` never touches; the driver zeroes
it before the tick that may trigger the reset. -/
theorem claim_C5 (g : Game) (k : Nat) :
    (ResetGame g k).width = g.width ∧ (ResetGame g k).height = g.height ∧
    (ResetGame g k).direction = g.direction ∧
    (ResetGame g k).directionQueue = g.directionQueue :=
  ⟨rfl, rfl, rfl, rfl⟩

/-- C6 (confirmed): from any state whose chain (committed direction followed
by queue) has no opposite adjacent pair and whose queue holds at most 3
entries, any sequence of enqueue calls — through either variant — preserves
both invariants. -/
theorem claim_C6 (g : Game) (ds : List Direction)
    (h1 : NoReversals g) (h2 : g.directionQueue.length ≤ 3) :
    (NoReversals (ds.foldl QueueDirection g) ∧
      (ds.foldl QueueDirection g).directionQueue.length ≤ 3) ∧
    (NoReversals (ds.foldl QueueDirectionMain g) ∧
      (ds.foldl QueueDirectionMain g).directionQueue.length ≤ 3) := by
  induction ds generalizing g with
  | nil => exact ⟨⟨h1, h2⟩, ⟨h1, h2⟩⟩
  | cons d rest ih =>
    simp only [List.foldl_cons]
    obtain ⟨ha1, ha2, -⟩ := queueDirection_step g d h1 h2
    obtain ⟨hb1, hb2, -⟩ := queueDirectionMain_step g d h1 h2
    exact ⟨(ih _ ha1 ha2).1, (ih _ hb1 hb2).2⟩

/-- C6 witness: the fresh session state `gC6w` under the key burst `dsC6`
instantiates the invariant hypothesis and both preserved conclusions. -/
theorem claim_C6_witness :
    (NoReversals gC6w ∧ gC6w.directionQueue.length ≤ 3) ∧
    ((NoReversals (dsC6.foldl QueueDirection gC6w) ∧
        (dsC6.foldl QueueDirection gC6w).directionQueue.length ≤ 3) ∧
      (NoReversals (dsC6.foldl QueueDirectionMain gC6w) ∧
        (dsC6.foldl QueueDirectionMain gC6w).directionQueue.length ≤ 3)) :=
  ⟨⟨by exact List.chain'_singleton _, by decide⟩,
    claim_C6 gC6w dsC6 (by exact List.chain'_singleton _) (by decide)⟩

/-- C7 counterexample: on the fully covered 1 by 1 grid `gC7full` the
rejection-sampling GetNewApplePosition of main.cpp / part_001 never exits —
for every draw stream and every iteration bound it is still running — so
the cited variant neither terminates nor returns the sentinel (0,0),
refuting the claim as stated for that source. -/
theorem claim_C7_counterexample :
    (∀ p : Vector2Int, 0 ≤ p.x → p.x < gC7full.width → 0 ≤ p.y → p.y < gC7full.height →
        p ∈ gC7full.snake) ∧
    (∀ (draws : Nat → Nat × Nat) (fuel : Nat),
        GetNewApplePositionLoop gC7full draws fuel = none) := by
  have hfull : ∀ p : Vector2Int, 0 ≤ p.x → p.x < gC7full.width → 0 ≤ p.y →
      p.y < gC7full.height → p ∈ gC7full.snake := by
    intro p h1 h2 h3 h4
    simp only [gC7full] at h2 h4 ⊢
    have hp : p = ⟨0, 0⟩ := by
      obtain ⟨a, b⟩ := p
      dsimp only at *
      simp only [Vector2Int.mk.injEq]
      constructor <;> omega
    rw [hp]
    exact List.mem_singleton_self _
  exact ⟨hfull, fun draws fuel =>
    getNewApplePositionLoop_full gC7full (by decide) (by decide) hfull fuel draws⟩

/-- C7 (amended): snake.cpp's enumerating `GetNewApplePosition` terminates
for every state and returns a free in-bounds cell whenever one exists (for
every random draw) and the sentinel (0,0) when the snake covers the whole
grid; the rejection-sampling variant of main.cpp / part_001 returns only
cells off the snake whenever it returns at all, but on a fully covered grid
it never returns — no iteration bound suffices for any draw stream — so the
termination-with-sentinel guarantee holds only for the enumerating
variant. -/
theorem claim_C7 (g : Game) (k : Nat) (draws : Nat → Nat × Nat) (fuel : Nat) :
    ((∃ p : Vector2Int, 0 ≤ p.x ∧ p.x < g.width ∧ 0 ≤ p.y ∧ p.y < g.height ∧ p ∉ g.snake) →
      0 ≤ (GetNewApplePosition g k).x ∧ (GetNewApplePosition g k).x < g.width ∧
      0 ≤ (GetNewApplePosition g k).y ∧ (GetNewApplePosition g k).y < g.height ∧
      GetNewApplePosition g k ∉ g.snake) ∧
    ((∀ p : Vector2Int, 0 ≤ p.x → p.x < g.width → 0 ≤ p.y → p.y < g.height → p ∈ g.snake) →
      GetNewApplePosition g k = ⟨0, 0⟩) ∧
    (∀ pos : Vector2Int, GetNewApplePositionLoop g draws fuel = some pos → pos ∉ g.snake) ∧
    (1 ≤ g.width → 1 ≤ g.height →
      (∀ p : Vector2Int, 0 ≤ p.x → p.x < g.width → 0 ≤ p.y → p.y < g.height → p ∈ g.snake) →
      GetNewApplePositionLoop g draws fuel = none) := by
  refine ⟨?_, ?_, ?_, ?_⟩
  · rintro ⟨p, hp⟩
    have hne : emptyCells g ≠ [] := List.ne_nil_of_mem (mem_emptyCells.mpr hp)
    have hmem := getNewApplePosition_mem k hne
    exact mem_emptyCells.mp hmem
  · intro hfull
    refine getNewApplePosition_sentinel k ?_
    by_contra hne
    obtain ⟨p, hp⟩ := List.exists_mem_of_ne_nil _ hne
    rw [mem_emptyCells] at hp
    exact hp.2.2.2.2 (hfull p hp.1 hp.2.1 hp.2.2.1 hp.2.2.2.1)
  · exact getNewApplePositionLoop_not_mem g fuel draws
  · intro hw hh hfull
    exact getNewApplePositionLoop_full g hw hh hfull fuel draws

/-- C7 witness: on `gC7free` a free cell exists, the enumerating placer
avoids the snake, and the rejection sampler exits on its first draw with a
cell off the snake; on the fully covered 1 by 1 grid `gC7full` the
enumerating placer returns the sentinel (0,0) while the sampler is still
running after 5 iterations. -/
theorem claim_C7_witness :
    ((∃ p : Vector2Int, 0 ≤ p.x ∧ p.x < gC7free.width ∧ 0 ≤ p.y ∧ p.y < gC7free.height ∧
        p ∉ gC7free.snake) ∧
      GetNewApplePosition gC7free 0 ∉ gC7free.snake) ∧
    (GetNewApplePositionLoop gC7free (fun _ => (0, 0)) 1 = some ⟨0, 0⟩ ∧
      (⟨0, 0⟩ : Vector2Int) ∉ gC7free.snake) ∧
    ((∀ p : Vector2Int, 0 ≤ p.x → p.x < gC7full.width → 0 ≤ p.y → p.y < gC7full.height →
        p ∈ gC7full.snake) ∧
      GetNewApplePosition gC7full 0 = ⟨0, 0⟩ ∧
      GetNewApplePositionLoop gC7full (fun _ => (0, 0)) 5 = none) := by
  have hfull : ∀ p : Vector2Int, 0 ≤ p.x → p.x < gC7full.width → 0 ≤ p.y →
      p.y < gC7full.height → p ∈ gC7full.snake := by
    intro p h1 h2 h3 h4
    simp only [gC7full] at h2 h4 ⊢
    have hp : p = ⟨0, 0⟩ := by
      obtain ⟨a, b⟩ := p
      dsimp only at *
      simp only [Vector2Int.mk.injEq]
      constructor <;> omega
    rw [hp]
    exact List.mem_singleton_self _
  refine ⟨⟨⟨⟨0, 0⟩, by decide⟩, ?_⟩, ⟨by decide, ?_⟩, hfull, ?_, ?_⟩
  · exact ((claim_C7 gC7free 0 (fun _ => (0, 0)) 1).1 ⟨⟨0, 0⟩, by decide⟩).2.2.2.2
  · exact (claim_C7 gC7free 0 (fun _ => (0, 0)) 1).2.2.1 ⟨0, 0⟩ (by decide)
  · exact (claim_C7 gC7full 0 (fun _ => (0, 0)) 5).2.1 hfull
  · exact (claim_C7 gC7full 0 (fun _ => (0, 0)) 5).2.2.2 (by decide) (by decide) hfull

/-- C8 (confirmed): whenever `Update` reports a collision it returns the
state with the snake body and the apple exactly as they were before the
call. -/
theorem claim_C8 (g : Game) (k : Nat) (h : (Update g k).1 = true) :
    (Update g k).2.snake = g.snake ∧ (Update g k).2.apple = g.apple := by
  cases hq : g.directionQueue with
  | nil =>
    simp only [Update, hq] at h ⊢
    split at h
    · simp_all
    · split at h <;> simp_all
  | cons d rest =>
    simp only [Update, hq] at h ⊢
    split at h
    · simp_all
    · split at h <;> simp_all

/-- C8 witness: the spec's wall scenario `gC8w` collides out of bounds, and
the snake and apple are untouched. -/
theorem claim_C8_witness :
    (Update gC8w 0).1 = true ∧
    ((Update gC8w 0).2.snake = gC8w.snake ∧ (Update gC8w 0).2.apple = gC8w.apple) :=
  ⟨by decide, claim_C8 gC8w 0 (by decide)⟩

/-- C9 counterexample: on a 25 by 25 grid with a 1 by 1 viewport the code's
truncating division yields 0 while the claimed floor-division formula yields
-1, so the claim's equality fails on degenerate viewports. -/
theorem claim_C9_counterexample :
    GetCellSize 25 25 1 1 = 0 ∧ CellSizeSpecFloor 25 25 1 1 = -1 ∧
    GetCellSize 25 25 1 1 ≠ CellSizeSpecFloor 25 25 1 1 := by
  decide

/-- C9 (amended): `GetCellSize` computes the two per-axis quotients with
C++ truncating (toward zero) integer division, not floor division; the two
agree — and the claimed formula is exact — whenever the viewport is at least
the doubled border of 4 pixels on each axis, while for smaller viewports the
raw truncated value is returned unclamped. -/
theorem claim_C9 (gridW gridH viewportW viewportH : Int)
    (hgw : 1 ≤ gridW) (hgh : 1 ≤ gridH)
    (hvw : 2 * BORDER_THICKNESS ≤ viewportW) (hvh : 2 * BORDER_THICKNESS ≤ viewportH) :
    GetCellSize gridW gridH viewportW viewportH =
      CellSizeSpecFloor gridW gridH viewportW viewportH := by
  unfold GetCellSize CellSizeSpecFloor BORDER_THICKNESS at *
  rw [Int.tdiv_eq_ediv (by omega) (by omega), Int.tdiv_eq_ediv (by omega) (by omega),
    Int.fdiv_eq_ediv _ (by omega), Int.fdiv_eq_ediv _ (by omega)]

/-- C9 witness: the session window (800 by 450 viewport, 25 by 25 grid)
satisfies the hypotheses and the code equals the floor formula there. -/
theorem claim_C9_witness :
    ((1 : Int) ≤ 25 ∧ (1 : Int) ≤ 25 ∧
      2 * BORDER_THICKNESS ≤ (800 : Int) ∧ 2 * BORDER_THICKNESS ≤ (450 : Int)) ∧
    GetCellSize 25 25 800 450 = CellSizeSpecFloor 25 25 800 450 :=
  ⟨⟨by decide, by decide, by decide, by decide⟩,
    claim_C9 25 25 800 450 (by decide) (by decide) (by decide) (by decide)⟩

/-- C10 (confirmed): with a non-empty queue, `Update` commits the front
entry as the direction and removes it from the queue — whatever the tick's
outcome — and a subsequent `ResetGame` lays the new snake behind the grid
center along the inverse of that freshly dequeued direction, not the old
heading. -/
theorem claim_C10 (g : Game) (k k2 : Nat) (d : Direction) (rest : List Direction)
    (h : g.directionQueue = d :: rest) :
    (Update g k).2.direction = d ∧ (Update g k).2.directionQueue = rest ∧
    (ResetGame (Update g k).2 k2).snake =
      [⟨Int.tdiv g.width 2, Int.tdiv g.height 2⟩,
       ⟨Int.tdiv g.width 2 - (OffsetFromDirection d).x,
        Int.tdiv g.height 2 - (OffsetFromDirection d).y⟩,
       ⟨Int.tdiv g.width 2 - 2 * (OffsetFromDirection d).x,
        Int.tdiv g.height 2 - 2 * (OffsetFromDirection d).y⟩] := by
  obtain ⟨h1, h2⟩ := update_pop g k d rest h
  obtain ⟨hw, hh⟩ := update_dims g k
  refine ⟨h1, h2, ?_⟩
  rw [resetGame_snake, hw, hh, h1]

/-- C10 witness: the state `gC10w` heading RIGHT with DOWN queued commits
DOWN on the tick, and the reset layout follows DOWN. -/
theorem claim_C10_witness :
    gC10w.directionQueue = [Direction.DOWN] ∧
    ((Update gC10w 0).2.direction = Direction.DOWN ∧
      (Update gC10w 0).2.directionQueue = [] ∧
      (ResetGame (Update gC10w 0).2 0).snake =
        [⟨Int.tdiv gC10w.width 2, Int.tdiv gC10w.height 2⟩,
         ⟨Int.tdiv gC10w.width 2 - (OffsetFromDirection Direction.DOWN).x,
          Int.tdiv gC10w.height 2 - (OffsetFromDirection Direction.DOWN).y⟩,
         ⟨Int.tdiv gC10w.width 2 - 2 * (OffsetFromDirection Direction.DOWN).x,
          Int.tdiv gC10w.height 2 - 2 * (OffsetFromDirection Direction.DOWN).y⟩]) :=
  ⟨rfl, claim_C10 gC10w 0 0 Direction.DOWN [] rfl⟩

end SnakeGame
